import Mathlib

/-!
Shallow embedding of the deployment-variable resource handler of
terraform-provider-bitbucket (bitbucket/resource_deployment_variable.go).

The local declarative record (terraform ResourceData: schema fields plus the
resource identity) is a plain structure.  The HTTP collaborator is modelled by
passing the outcome of each collaborator call to the operation as an explicit
argument; each operation returns the outcome of the Go function together with the
list of collaborator calls it issued.
-/

set_option autoImplicit false

namespace BitbucketDV

/-- DeploymentVariable structure for handling key info
    (struct DeploymentVariable in the source; JSON fields key, value,
    uuid, secured). -/
structure DeploymentVariable where
  key : String
  value : String
  uuid : String
  secured : Bool
deriving DecidableEq

/-- Paginated list that the bitbucket api returns
    (struct PaginatedDeploymentVariables: values, page, size, next). -/
structure PaginatedDeploymentVariables where
  values : List DeploymentVariable
  page : Int
  size : Int
  next : String
deriving DecidableEq

/-- The local declarative record: the five schema fields of the resource
    (uuid, key, value, secured, deployment) plus the identity d.Id(). -/
structure ResourceData where
  id : String
  uuid : String
  key : String
  value : String
  secured : Bool
  deployment : String
deriving DecidableEq

/-- Splits a character list at the first colon: the characters strictly before
    the first colon, and everything after it.  Returns none when no colon
    occurs.  Models strings.SplitN(str, ":", 2): SplitN yields a two-element
    slice exactly when a colon is present, and a one-element slice otherwise. -/
def splitFirstColon : List Char → Option (List Char × List Char)
  | [] => none
  | c :: cs =>
    if c = ':' then some ([], cs)
    else
      match splitFirstColon cs with
      | none => none
      | some (a, b) => some (c :: a, b)

/-- Embedding of parseDeploymentId.  The source indexes parts[1] of
    strings.SplitN(str, ":", 2) unconditionally; when the input has no colon
    the slice has length 1 and the access faults (index out of range).  In
    this total embedding that faulting branch is the none result. -/
def parseDeploymentId (str : String) : Option (String × String) :=
  match splitFirstColon str.data with
  | none => none
  | some (a, b) => some (String.mk a, String.mk b)

theorem splitFirstColon_eq_none (l : List Char) :
    splitFirstColon l = none ↔ ':' ∉ l := by
  induction l with
  | nil => simp [splitFirstColon]
  | cons c cs ih =>
    by_cases hc : c = ':'
    · subst hc
      simp [splitFirstColon]
    · cases h : splitFirstColon cs with
      | none =>
        simp only [splitFirstColon, if_neg hc, h]
        have := ih.mp h
        simp [List.mem_cons, hc, Ne.symm hc, this]
      | some p =>
        obtain ⟨a, b⟩ := p
        simp only [splitFirstColon, if_neg hc, h]
        have : ':' ∈ cs := by
          by_contra hmem
          rw [← ih] at hmem
          rw [h] at hmem
          exact Option.noConfusion hmem
        simp [List.mem_cons, this]

theorem splitFirstColon_append (a b : List Char) (ha : ':' ∉ a) :
    splitFirstColon (a ++ ':' :: b) = some (a, b) := by
  induction a with
  | nil => simp [splitFirstColon]
  | cons c cs ih =>
    have hc : c ≠ ':' := fun h => ha (h ▸ List.mem_cons_self c cs)
    have hcs : ':' ∉ cs := fun h => ha (List.mem_cons_of_mem c h)
    simp only [List.cons_append, splitFirstColon, if_neg hc, List.append_eq, ih hcs]

/-- Outcome of reading and decoding a response body: ioutil.ReadAll may fail,
    json.Unmarshal may fail, or a decoded value is obtained. -/
inductive Body (α : Type) where
  | readErr (e : String)
  | decodeErr (e : String)
  | val (v : α)
deriving DecidableEq

/-- An HTTP-response-like object as exposed by the collaborator: a status code
    and a readable body.  For responses whose body is never read the type
    argument is Unit. -/
structure Resp (α : Type) where
  statusCode : Int
  body : Body α
deriving DecidableEq

/-- Outcome of one lifecycle operation: a normal return of the (possibly
    updated) local record, a returned Go error, or a runtime fault (index out
    of range in parseDeploymentId, or dereferencing a nil response). -/
inductive GoResult where
  | ok (d : ResourceData)
  | goError (e : String)
  | fault
deriving DecidableEq

/-- One collaborator call, with the request path it was issued on and, for
    Post/Put, the serialized payload. -/
inductive HttpCall where
  | get (path : String)
  | post (path : String) (body : DeploymentVariable)
  | put (path : String) (body : DeploymentVariable)
  | delete (path : String)
deriving DecidableEq

/-- Collection path used by Create and Read:
    2.0/repositories/{repository}/deployments_config/environments/{deployment}/variables. -/
def variablesPath (repository deployment : String) : String :=
  "2.0/repositories/" ++ repository ++ "/deployments_config/environments/"
    ++ deployment ++ "/variables"

/-- Item path used by Update and Delete: the collection path followed by
    /{uuid}.  (Delete wraps the format string in a second fmt.Sprintf with no
    verbs, which is the identity.) -/
def variablePath (repository deployment uuid : String) : String :=
  variablesPath repository deployment ++ "/" ++ uuid

/-- Embedding of newDeploymentVariableFromResource: projects key, value,
    secured from the record; the UUID field is left at its zero value. -/
def newDeploymentVariableFromResource (d : ResourceData) : DeploymentVariable :=
  { key := d.key, value := d.value, uuid := "", secured := d.secured }

/-- First element of the values slice whose UUID equals the given uuid, as
    scanned by the range loop in resourceDeploymentVariableRead. -/
def findMatch (uuid : String) : List DeploymentVariable → Option DeploymentVariable
  | [] => none
  | rv :: rest => if rv.uuid = uuid then some rv else findMatch uuid rest

/-- Body of resourceDeploymentVariableRead from the StatusCode tests on, once
    a non-nil response rvReq is in hand: the 200 branch decodes the envelope,
    treats size below 1 as absent, scans for the matching UUID and copies the
    matched fields; the 404 branch clears the identity; any other status
    returns nil with the record untouched. -/
def readOutcome (d : ResourceData) (rvReq : Resp PaginatedDeploymentVariables) : GoResult :=
  if rvReq.statusCode = 200 then
    match rvReq.body with
    | .readErr e => .goError e
    | .decodeErr e => .goError e
    | .val prv =>
      if prv.size < 1 then .ok { d with id := "" }
      else
        match findMatch d.uuid prv.values with
        | some rv =>
          .ok { d with id := rv.uuid, key := rv.key, value := rv.value,
                       secured := rv.secured }
        | none => .ok { d with id := "" }
  else if rvReq.statusCode = 404 then .ok { d with id := "" }
  else .ok d

/-- Embedding of resourceDeploymentVariableRead.  The collaborator call
    client.Get returns a response and an error; the source binds that error to
    the blank identifier, so getErr is never consulted.  When no response
    object is available (the nil response of a failed call) the StatusCode
    access on it faults.  The log.Printf call is pure output and not
    modelled. -/
def resourceDeploymentVariableRead (d : ResourceData)
    (getResp : Option (Resp PaginatedDeploymentVariables)) (getErr : Option String) :
    GoResult × List HttpCall :=
  match parseDeploymentId d.deployment with
  | none => (.fault, [])
  | some (repository, deployment) =>
    let call := HttpCall.get (variablesPath repository deployment)
    match getResp with
    | none => (.fault, [call])
    | some rvReq => (readOutcome d rvReq, [call])

/-- Embedding of resourceDeploymentVariableCreate.  json.Marshal of a struct
    of two strings and a bool cannot fail, so the marshal error check in the
    source is vacuous and marshalling is modelled as total.  post is the
    outcome of client.Post; on success its body is read and unmarshalled
    unconditionally (the status code is never inspected).  On success the
    server-assigned UUID is stored in the uuid field and as the identity, the
    fixed 5-second sleep elapses (no temporal content in this embedding), and
    Read is invoked on the updated record; getResp/getErr are the outcome of
    the collaborator call of that embedded Read. -/
def resourceDeploymentVariableCreate (d : ResourceData)
    (post : Except String (Resp DeploymentVariable))
    (getResp : Option (Resp PaginatedDeploymentVariables)) (getErr : Option String) :
    GoResult × List HttpCall :=
  match parseDeploymentId d.deployment with
  | none => (.fault, [])
  | some (repository, deployment) =>
    let call := HttpCall.post (variablesPath repository deployment)
      (newDeploymentVariableFromResource d)
    match post with
    | .error e => (.goError e, [call])
    | .ok req =>
      match req.body with
      | .readErr e => (.goError e, [call])
      | .decodeErr e => (.goError e, [call])
      | .val rv =>
        let d' : ResourceData := { d with uuid := rv.uuid, id := rv.uuid }
        let r := resourceDeploymentVariableRead d' getResp getErr
        (r.1, call :: r.2)

/-- Embedding of resourceDeploymentVariableUpdate.  put is the outcome of
    client.Put; its body is never read, only the status code.  On a non-200
    status the operation returns nil without touching the record; on 200 it
    invokes Read (getResp/getErr are the outcome of that call). -/
def resourceDeploymentVariableUpdate (d : ResourceData)
    (put : Except String (Resp Unit))
    (getResp : Option (Resp PaginatedDeploymentVariables)) (getErr : Option String) :
    GoResult × List HttpCall :=
  match parseDeploymentId d.deployment with
  | none => (.fault, [])
  | some (repository, deployment) =>
    let call := HttpCall.put (variablePath repository deployment d.uuid)
      (newDeploymentVariableFromResource d)
    match put with
    | .error e => (.goError e, [call])
    | .ok req =>
      if req.statusCode = 200 then
        let r := resourceDeploymentVariableRead d getResp getErr
        (r.1, call :: r.2)
      else (.ok d, [call])

/-- Embedding of resourceDeploymentVariableDelete: issue the delete request
    and return its error; the response object is discarded and the record is
    left unchanged. -/
def resourceDeploymentVariableDelete (d : ResourceData)
    (del : Except String (Resp Unit)) : GoResult × List HttpCall :=
  match parseDeploymentId d.deployment with
  | none => (.fault, [])
  | some (repository, deployment) =>
    let call := HttpCall.delete (variablePath repository deployment d.uuid)
    match del with
    | .error e => (.goError e, [call])
    | .ok _ => (.ok d, [call])

/-- Number of Get calls in a call trace; each Get issued within an operation
    corresponds to exactly one invocation of Read. -/
def countGets : List HttpCall → Nat
  | [] => 0
  | .get _ :: rest => countGets rest + 1
  | _ :: rest => countGets rest

theorem findMatch_uuid (uuid : String) (l : List DeploymentVariable)
    (rv : DeploymentVariable) (h : findMatch uuid l = some rv) : rv.uuid = uuid := by
  induction l with
  | nil => exact Option.noConfusion h
  | cons x rest ih =>
    by_cases hx : x.uuid = uuid
    · simp only [findMatch, if_pos hx] at h
      cases h
      exact hx
    · simp only [findMatch, if_neg hx] at h
      exact ih h

theorem findMatch_eq_none_iff (uuid : String) (l : List DeploymentVariable) :
    findMatch uuid l = none ↔ ∀ rv ∈ l, rv.uuid ≠ uuid := by
  induction l with
  | nil => simp [findMatch]
  | cons x rest ih =>
    by_cases hx : x.uuid = uuid
    · simp [findMatch, hx]
    · simp [findMatch, hx, ih]

/-! Concrete fixtures used by witnesses and counterexamples. -/

/-- A local record whose deployment identifier parses to (repo, dep). -/
def sampleRecord : ResourceData :=
  { id := "u1", uuid := "u1", key := "old", value := "oldv", secured := false,
    deployment := "repo:dep" }

/-- A 404 response; its body is never read by the code. -/
def sampleResp404 : Resp PaginatedDeploymentVariables :=
  { statusCode := 404, body := .val { values := [], page := 0, size := 0, next := "" } }

/-- A remote variable whose uuid matches sampleRecord. -/
def sampleVar : DeploymentVariable :=
  { key := "k", value := "v", uuid := "u1", secured := true }

/-- A consistent one-element first page containing sampleVar. -/
def samplePage : PaginatedDeploymentVariables :=
  { values := [sampleVar], page := 1, size := 1, next := "" }

/-- A 200 response carrying samplePage. -/
def sampleResp200 : Resp PaginatedDeploymentVariables :=
  { statusCode := 200, body := .val samplePage }

/-- A record whose composite identifier has an empty repository component. -/
def emptyRepoRecord : ResourceData :=
  { id := "u1", uuid := "u1", key := "k", value := "v", secured := false,
    deployment := ":d" }

theorem parseDeploymentId_none_iff (s : String) :
    parseDeploymentId s = none ↔ ':' ∉ s.data := by
  rw [← splitFirstColon_eq_none s.data]
  unfold parseDeploymentId
  cases h : splitFirstColon s.data with
  | none => simp
  | some p =>
    obtain ⟨a, b⟩ := p
    simp

/-- Claim C1: parseDeploymentId reaches its error/fault branch (the out of
    range access on parts[1], the none result of the total embedding) exactly
    on the inputs that contain no colon. -/
theorem parseDeploymentId_fault_iff_no_colon (s : String) :
    parseDeploymentId s = none ↔ ':' ∉ s.data :=
  parseDeploymentId_none_iff s

/-- Claim C4: on any input with at least one colon, parseDeploymentId splits
    at the first colon only: the first component is the text before the first
    colon and the second component is everything after it, colons included;
    in particular the input a:b:c yields (a, b:c). -/
theorem parseDeploymentId_first_colon :
    (∀ a b : String, ':' ∉ a.data →
      parseDeploymentId (a ++ ":" ++ b) = some (a, b))
    ∧ parseDeploymentId "a:b:c" = some ("a", "b:c") := by
  refine ⟨fun a b ha => ?_, rfl⟩
  unfold parseDeploymentId
  have hdata : (a ++ ":" ++ b).data = a.data ++ ':' :: b.data := by
    simp [String.data_append]
  rw [hdata, splitFirstColon_append a.data b.data ha]

/-- Witness for claim C4 at a = a, b = b:c. -/
theorem parseDeploymentId_first_colon_witness :
    parseDeploymentId ("a" ++ ":" ++ "b:c") = some ("a", "b:c") :=
  parseDeploymentId_first_colon.1 "a" "b:c" (by decide)

/-- Claim C10: parseDeploymentId never checks the two components for
    non-emptiness: every input with a colon parses, a leading colon yields an
    empty repository and a trailing colon an empty deployment, and the four
    lifecycle operations proceed to build their request paths from the empty
    component (shown here on the identifier :d, whose collection path has an
    empty repository segment) and finish without error or fault. -/
theorem parseDeploymentId_allows_empty_components :
    (∀ s : String, ':' ∈ s.data → ∃ p, parseDeploymentId s = some p)
    ∧ parseDeploymentId ":d" = some ("", "d")
    ∧ parseDeploymentId "r:" = some ("r", "")
    ∧ resourceDeploymentVariableRead emptyRepoRecord (some sampleResp404) none
        = (.ok { emptyRepoRecord with id := "" },
           [.get "2.0/repositories//deployments_config/environments/d/variables"])
    ∧ resourceDeploymentVariableCreate emptyRepoRecord
        (.ok { statusCode := 200, body := .val sampleVar }) (some sampleResp404) none
        = (.ok { emptyRepoRecord with id := "" },
           [.post "2.0/repositories//deployments_config/environments/d/variables"
              (newDeploymentVariableFromResource emptyRepoRecord),
            .get "2.0/repositories//deployments_config/environments/d/variables"])
    ∧ resourceDeploymentVariableUpdate emptyRepoRecord
        (.ok { statusCode := 500, body := .val () }) none none
        = (.ok emptyRepoRecord,
           [.put "2.0/repositories//deployments_config/environments/d/variables/u1"
              (newDeploymentVariableFromResource emptyRepoRecord)])
    ∧ resourceDeploymentVariableDelete emptyRepoRecord
        (.ok { statusCode := 204, body := .val () })
        = (.ok emptyRepoRecord,
           [.delete "2.0/repositories//deployments_config/environments/d/variables/u1"]) := by
  refine ⟨fun s hs => ?_, rfl, rfl, rfl, rfl, rfl, rfl⟩
  cases h : parseDeploymentId s with
  | none =>
    exact absurd hs ((parseDeploymentId_none_iff s).mp h)
  | some p => exact ⟨p, rfl⟩

/-- Witness for claim C10 at the input :x. -/
theorem parseDeploymentId_allows_empty_components_witness :
    ∃ p, parseDeploymentId ":x" = some p :=
  parseDeploymentId_allows_empty_components.1 ":x" (by decide)

/-- Claim C2 counterexample: in Read the transport error of client.Get is
    bound to the blank identifier, so it is never propagated.  With a response
    in hand Read returns success; with no response available it faults; in
    neither case is the transport error returned to the caller. -/
theorem read_transport_error_not_propagated :
    (resourceDeploymentVariableRead sampleRecord (some sampleResp404)
        (some "connection refused")).1 = .ok { sampleRecord with id := "" }
    ∧ (resourceDeploymentVariableRead sampleRecord none (some "connection refused")).1
        = .fault
    ∧ GoResult.ok { sampleRecord with id := "" } ≠ .goError "connection refused"
    ∧ GoResult.fault ≠ .goError "connection refused" :=
  ⟨rfl, rfl, by decide, by decide⟩

/-- Claim C2 as amended: Create, Update and Delete propagate a transport
    error of their collaborator call immediately, aborting the operation;
    Read discards the transport error of its Get call (its outcome does not
    depend on that error at all) and faults when no response object is
    available. -/
theorem transport_errors_propagated_except_read :
    (∀ (d : ResourceData) (repository deployment e : String)
        (getResp : Option (Resp PaginatedDeploymentVariables)) (getErr : Option String),
      parseDeploymentId d.deployment = some (repository, deployment) →
      (resourceDeploymentVariableCreate d (.error e) getResp getErr).1 = .goError e)
    ∧ (∀ (d : ResourceData) (repository deployment e : String)
        (getResp : Option (Resp PaginatedDeploymentVariables)) (getErr : Option String),
      parseDeploymentId d.deployment = some (repository, deployment) →
      (resourceDeploymentVariableUpdate d (.error e) getResp getErr).1 = .goError e)
    ∧ (∀ (d : ResourceData) (repository deployment e : String),
      parseDeploymentId d.deployment = some (repository, deployment) →
      (resourceDeploymentVariableDelete d (.error e)).1 = .goError e)
    ∧ (∀ (d : ResourceData) (getResp : Option (Resp PaginatedDeploymentVariables))
        (e e' : Option String),
      resourceDeploymentVariableRead d getResp e
        = resourceDeploymentVariableRead d getResp e') := by
  refine ⟨fun d r dep e gR gE hp => ?_, fun d r dep e gR gE hp => ?_,
    fun d r dep e hp => ?_, fun d gR e e' => rfl⟩
  · simp [resourceDeploymentVariableCreate, hp]
  · simp [resourceDeploymentVariableUpdate, hp]
  · simp [resourceDeploymentVariableDelete, hp]

/-- Witness for the amended claim C2 on a concrete record and a concrete
    transport error. -/
theorem transport_errors_propagated_except_read_witness :
    (resourceDeploymentVariableCreate sampleRecord (.error "boom") none none).1
        = .goError "boom"
    ∧ (resourceDeploymentVariableUpdate sampleRecord (.error "boom") none none).1
        = .goError "boom"
    ∧ (resourceDeploymentVariableDelete sampleRecord (.error "boom")).1
        = .goError "boom" :=
  ⟨transport_errors_propagated_except_read.1 sampleRecord "repo" "dep" "boom" none none rfl,
   transport_errors_propagated_except_read.2.1 sampleRecord "repo" "dep" "boom" none none rfl,
   transport_errors_propagated_except_read.2.2.1 sampleRecord "repo" "dep" "boom" rfl⟩

theorem readOutcome_clears (d : ResourceData) (rvReq : Resp PaginatedDeploymentVariables)
    (habs : (rvReq.statusCode = 200 ∧ ∃ prv, rvReq.body = .val prv ∧
              (prv.size < 1 ∨ findMatch d.uuid prv.values = none))
            ∨ rvReq.statusCode = 404) :
    readOutcome d rvReq = .ok { d with id := "" } := by
  unfold readOutcome
  rcases habs with ⟨h200, prv, hbody, hdisj⟩ | h404
  · rw [if_pos h200, hbody]
    dsimp only
    rcases hdisj with hsz | hfind
    · rw [if_pos hsz]
    · by_cases hsz : prv.size < 1
      · rw [if_pos hsz]
      · rw [if_neg hsz, hfind]
  · have h200 : ¬ rvReq.statusCode = 200 := by rw [h404]; decide
    rw [if_neg h200, if_pos h404]

/-- Claim C3: when the list request of Read yields a response that is a 200
    whose decoded envelope has size below 1, or a 200 whose page has no entry
    matching the local uuid, or a 404, Read clears the local identity and
    returns success. -/
theorem read_absent_clears_identity (d : ResourceData)
    (repository deployment : String) (rvReq : Resp PaginatedDeploymentVariables)
    (getErr : Option String)
    (hp : parseDeploymentId d.deployment = some (repository, deployment))
    (habs : (rvReq.statusCode = 200 ∧ ∃ prv, rvReq.body = .val prv ∧
              (prv.size < 1 ∨ findMatch d.uuid prv.values = none))
            ∨ rvReq.statusCode = 404) :
    (resourceDeploymentVariableRead d (some rvReq) getErr).1 = .ok { d with id := "" } := by
  simp only [resourceDeploymentVariableRead, hp]
  exact readOutcome_clears d rvReq habs

/-- Witness for claim C3: a 404 response against the sample record. -/
theorem read_absent_clears_identity_witness :
    (resourceDeploymentVariableRead sampleRecord (some sampleResp404) none).1
      = .ok { sampleRecord with id := "" } :=
  read_absent_clears_identity sampleRecord "repo" "dep" sampleResp404 none rfl
    (Or.inr rfl)

/-- Claim C9: whenever Read clears the local identity (size below 1, uuid
    absent from the first page, or a 404), every other field of the local
    record — key, value, secured, the uuid field and the deployment — keeps
    its prior value; only the identity becomes the empty string. -/
theorem read_clear_touches_only_identity (d : ResourceData)
    (repository deployment : String) (rvReq : Resp PaginatedDeploymentVariables)
    (getErr : Option String)
    (hp : parseDeploymentId d.deployment = some (repository, deployment))
    (habs : (rvReq.statusCode = 200 ∧ ∃ prv, rvReq.body = .val prv ∧
              (prv.size < 1 ∨ findMatch d.uuid prv.values = none))
            ∨ rvReq.statusCode = 404) :
    ∃ d', (resourceDeploymentVariableRead d (some rvReq) getErr).1 = .ok d'
      ∧ d'.id = "" ∧ d'.uuid = d.uuid ∧ d'.key = d.key ∧ d'.value = d.value
      ∧ d'.secured = d.secured ∧ d'.deployment = d.deployment := by
  refine ⟨{ d with id := "" }, ?_, rfl, rfl, rfl, rfl, rfl, rfl⟩
  simp only [resourceDeploymentVariableRead, hp]
  exact readOutcome_clears d rvReq habs

/-- Witness for claim C9: a 200 response whose page holds no entry matching
    the sample record. -/
theorem read_clear_touches_only_identity_witness :
    ∃ d', (resourceDeploymentVariableRead { sampleRecord with uuid := "zz" }
            (some sampleResp200) none).1 = .ok d'
      ∧ d'.id = "" ∧ d'.uuid = ({ sampleRecord with uuid := "zz" } : ResourceData).uuid
      ∧ d'.key = ({ sampleRecord with uuid := "zz" } : ResourceData).key
      ∧ d'.value = ({ sampleRecord with uuid := "zz" } : ResourceData).value
      ∧ d'.secured = ({ sampleRecord with uuid := "zz" } : ResourceData).secured
      ∧ d'.deployment = ({ sampleRecord with uuid := "zz" } : ResourceData).deployment :=
  read_clear_touches_only_identity { sampleRecord with uuid := "zz" } "repo" "dep"
    sampleResp200 none rfl
    (Or.inl ⟨rfl, samplePage, rfl, Or.inr (by decide)⟩)

/-- Claim C7: an Update whose Put succeeds at the transport level with a
    status other than 200 returns success, leaves the record unchanged, and
    issues no Read (no Get appears in its call trace). -/
theorem update_non_200_swallowed (d : ResourceData)
    (repository deployment : String) (req : Resp Unit)
    (getResp : Option (Resp PaginatedDeploymentVariables)) (getErr : Option String)
    (hp : parseDeploymentId d.deployment = some (repository, deployment))
    (hst : req.statusCode ≠ 200) :
    resourceDeploymentVariableUpdate d (.ok req) getResp getErr
      = (.ok d, [.put (variablePath repository deployment d.uuid)
                   (newDeploymentVariableFromResource d)])
    ∧ countGets (resourceDeploymentVariableUpdate d (.ok req) getResp getErr).2 = 0 := by
  have hmain : resourceDeploymentVariableUpdate d (.ok req) getResp getErr
      = (.ok d, [.put (variablePath repository deployment d.uuid)
                   (newDeploymentVariableFromResource d)]) := by
    simp [resourceDeploymentVariableUpdate, hp, hst]
  exact ⟨hmain, by rw [hmain]; rfl⟩

/-- Witness for claim C7: a 500 response to the Put. -/
theorem update_non_200_swallowed_witness :
    resourceDeploymentVariableUpdate sampleRecord
        (.ok { statusCode := 500, body := .val () }) none none
      = (.ok sampleRecord,
         [.put (variablePath "repo" "dep" "u1")
            (newDeploymentVariableFromResource sampleRecord)])
    ∧ countGets (resourceDeploymentVariableUpdate sampleRecord
        (.ok { statusCode := 500, body := .val () }) none none).2 = 0 :=
  update_non_200_swallowed sampleRecord "repo" "dep"
    { statusCode := 500, body := .val () } none none rfl (by decide)

theorem findMatch_mem (uuid : String) (l : List DeploymentVariable)
    (rv : DeploymentVariable) (h : findMatch uuid l = some rv) : rv ∈ l := by
  induction l with
  | nil => exact Option.noConfusion h
  | cons x rest ih =>
    by_cases hx : x.uuid = uuid
    · simp only [findMatch, if_pos hx] at h
      injection h with h2
      subst h2
      exact List.mem_cons_self x rest
    · simp only [findMatch, if_neg hx] at h
      exact List.mem_cons_of_mem x (ih h)

/-- A first page whose values slice holds the matching entry while its size
    field reports 0. -/
def inconsistentPage : PaginatedDeploymentVariables :=
  { values := [sampleVar], page := 1, size := 0, next := "" }

/-- Claim C6 counterexample: a 200 response whose decoded first page contains
    the entry matching the local uuid, but whose size field is 0, is treated
    as absent by the size test before the scan: the fields are not copied and
    the identity is cleared instead. -/
theorem read_match_with_zero_size_not_copied :
    sampleVar ∈ inconsistentPage.values
    ∧ sampleVar.uuid = sampleRecord.uuid
    ∧ (resourceDeploymentVariableRead sampleRecord
        (some { statusCode := 200, body := .val inconsistentPage }) none).1
        = .ok { sampleRecord with id := "" }
    ∧ ({ sampleRecord with id := "" } : ResourceData).key ≠ sampleVar.key :=
  ⟨by decide, rfl, rfl, by decide⟩

/-- Claim C6 as amended: for every Read returning status 200 whose decoded
    first page reports size at least 1 and contains an entry with uuid equal
    to the local uuid, Read copies the (first) such entry verbatim — key,
    value and secured into the record, the identity set to its uuid, the uuid
    field already equal to it — and returns success. -/
theorem read_match_copies_fields (d : ResourceData)
    (repository deployment : String) (rvReq : Resp PaginatedDeploymentVariables)
    (getErr : Option String) (prv : PaginatedDeploymentVariables)
    (hp : parseDeploymentId d.deployment = some (repository, deployment))
    (h200 : rvReq.statusCode = 200) (hbody : rvReq.body = .val prv)
    (hsz : 1 ≤ prv.size)
    (hmem : ∃ rv ∈ prv.values, rv.uuid = d.uuid) :
    ∃ rv, findMatch d.uuid prv.values = some rv ∧ rv ∈ prv.values
      ∧ rv.uuid = d.uuid
      ∧ (resourceDeploymentVariableRead d (some rvReq) getErr).1
          = .ok { d with id := rv.uuid, key := rv.key, value := rv.value,
                         secured := rv.secured } := by
  have hne : findMatch d.uuid prv.values ≠ none := by
    intro hnone
    obtain ⟨rv, hrvmem, hrv⟩ := hmem
    exact (findMatch_eq_none_iff d.uuid prv.values).mp hnone rv hrvmem hrv
  cases hfind : findMatch d.uuid prv.values with
  | none => exact absurd hfind hne
  | some rv =>
    refine ⟨rv, rfl, findMatch_mem _ _ _ hfind, findMatch_uuid _ _ _ hfind, ?_⟩
    simp only [resourceDeploymentVariableRead, hp]
    unfold readOutcome
    rw [if_pos h200, hbody]
    dsimp only
    rw [if_neg (by omega), hfind]

/-- Witness for the amended claim C6 on the sample record and the consistent
    sample page. -/
theorem read_match_copies_fields_witness :
    ∃ rv, findMatch sampleRecord.uuid samplePage.values = some rv
      ∧ rv ∈ samplePage.values
      ∧ rv.uuid = sampleRecord.uuid
      ∧ (resourceDeploymentVariableRead sampleRecord (some sampleResp200) none).1
          = .ok { sampleRecord with
              id := rv.uuid, key := rv.key, value := rv.value, secured := rv.secured } :=
  read_match_copies_fields sampleRecord "repo" "dep" sampleResp200 none samplePage
    rfl rfl rfl (by decide) ⟨sampleVar, by decide, rfl⟩

theorem read_trace (d : ResourceData) (repository deployment : String)
    (getResp : Option (Resp PaginatedDeploymentVariables)) (getErr : Option String)
    (hp : parseDeploymentId d.deployment = some (repository, deployment)) :
    (resourceDeploymentVariableRead d getResp getErr).2
      = [.get (variablesPath repository deployment)] := by
  cases getResp <;> simp [resourceDeploymentVariableRead, hp]

/-- Claim C5: a Create whose Post succeeds and whose response body unmarshals
    to a DeploymentVariable with uuid u stores u as both the uuid field and
    the identity of the record, then invokes Read exactly once on that
    updated record before returning: the outcome of Create is the outcome of
    that Read, and the call trace is the Post followed by exactly one Get. -/
theorem create_stores_uuid_then_reads_once (d : ResourceData)
    (repository deployment : String) (req : Resp DeploymentVariable)
    (rv : DeploymentVariable)
    (getResp : Option (Resp PaginatedDeploymentVariables)) (getErr : Option String)
    (hp : parseDeploymentId d.deployment = some (repository, deployment))
    (hbody : req.body = .val rv) :
    resourceDeploymentVariableCreate d (.ok req) getResp getErr
      = ((resourceDeploymentVariableRead { d with uuid := rv.uuid, id := rv.uuid }
            getResp getErr).1,
         .post (variablesPath repository deployment) (newDeploymentVariableFromResource d)
           :: (resourceDeploymentVariableRead { d with uuid := rv.uuid, id := rv.uuid }
                 getResp getErr).2)
    ∧ countGets (resourceDeploymentVariableCreate d (.ok req) getResp getErr).2 = 1 := by
  have hmain : resourceDeploymentVariableCreate d (.ok req) getResp getErr
      = ((resourceDeploymentVariableRead { d with uuid := rv.uuid, id := rv.uuid }
            getResp getErr).1,
         .post (variablesPath repository deployment) (newDeploymentVariableFromResource d)
           :: (resourceDeploymentVariableRead { d with uuid := rv.uuid, id := rv.uuid }
                 getResp getErr).2) := by
    simp [resourceDeploymentVariableCreate, hp, hbody]
  have htr := read_trace { d with uuid := rv.uuid, id := rv.uuid } repository deployment
    getResp getErr hp
  refine ⟨hmain, ?_⟩
  rw [hmain]
  simp [countGets, htr]

/-- Witness for claim C5: the sample Create issues exactly one Get. -/
theorem create_stores_uuid_then_reads_once_witness :
    countGets (resourceDeploymentVariableCreate sampleRecord
        (.ok { statusCode := 200, body := .val sampleVar })
        (some sampleResp200) none).2 = 1 :=
  (create_stores_uuid_then_reads_once sampleRecord "repo" "dep"
      { statusCode := 200, body := .val sampleVar } sampleVar
      (some sampleResp200) none rfl rfl).2

theorem readOutcome_ok_deployment (d : ResourceData)
    (rvReq : Resp PaginatedDeploymentVariables) (d' : ResourceData)
    (h : readOutcome d rvReq = .ok d') : d'.deployment = d.deployment := by
  unfold readOutcome at h
  by_cases h200 : rvReq.statusCode = 200
  · rw [if_pos h200] at h
    cases hbody : rvReq.body with
    | readErr e => rw [hbody] at h; exact absurd h (by simp)
    | decodeErr e => rw [hbody] at h; exact absurd h (by simp)
    | val prv =>
      rw [hbody] at h
      dsimp only at h
      by_cases hsz : prv.size < 1
      · rw [if_pos hsz] at h
        injection h with h'
        subst h'
        rfl
      · rw [if_neg hsz] at h
        cases hfind : findMatch d.uuid prv.values with
        | none =>
          rw [hfind] at h
          injection h with h'
          subst h'
          rfl
        | some rv =>
          rw [hfind] at h
          injection h with h'
          subst h'
          rfl
  · rw [if_neg h200] at h
    by_cases h404 : rvReq.statusCode = 404
    · rw [if_pos h404] at h
      injection h with h'
      subst h'
      rfl
    · rw [if_neg h404] at h
      injection h with h'
      subst h'
      rfl

theorem readOutcome_ok_idem (d : ResourceData)
    (rvReq : Resp PaginatedDeploymentVariables) (d' : ResourceData)
    (h : readOutcome d rvReq = .ok d') : readOutcome d' rvReq = .ok d' := by
  unfold readOutcome at h ⊢
  by_cases h200 : rvReq.statusCode = 200
  · rw [if_pos h200] at h ⊢
    cases hbody : rvReq.body with
    | readErr e => rw [hbody] at h; exact absurd h (by simp)
    | decodeErr e => rw [hbody] at h; exact absurd h (by simp)
    | val prv =>
      rw [hbody] at h
      dsimp only at h ⊢
      by_cases hsz : prv.size < 1
      · rw [if_pos hsz] at h ⊢
        injection h with h'
        subst h'
        rfl
      · rw [if_neg hsz] at h ⊢
        cases hfind : findMatch d.uuid prv.values with
        | none =>
          rw [hfind] at h
          injection h with h'
          subst h'
          have hfind' : findMatch ({ d with id := "" } : ResourceData).uuid prv.values
              = none := hfind
          rw [hfind']
        | some rv =>
          rw [hfind] at h
          injection h with h'
          subst h'
          have hfind' : findMatch
              ({ d with id := rv.uuid, key := rv.key, value := rv.value,
                        secured := rv.secured } : ResourceData).uuid prv.values
              = some rv := hfind
          rw [hfind']
  · rw [if_neg h200] at h ⊢
    by_cases h404 : rvReq.statusCode = 404
    · rw [if_pos h404] at h ⊢
      injection h with h'
      subst h'
      rfl
    · rw [if_neg h404]

/-- Claim C8: Read is idempotent.  If a Read of the record d against a fixed
    remote response yields the record d2, then a second Read of d2 against the
    same response yields d2 again: running Read twice with no remote change
    leaves the record identical to running it once. -/
theorem read_idempotent (d : ResourceData)
    (getResp : Option (Resp PaginatedDeploymentVariables)) (getErr : Option String)
    (d2 : ResourceData)
    (h : (resourceDeploymentVariableRead d getResp getErr).1 = .ok d2) :
    (resourceDeploymentVariableRead d2 getResp getErr).1 = .ok d2 := by
  unfold resourceDeploymentVariableRead at h
  cases hp : parseDeploymentId d.deployment with
  | none =>
    rw [hp] at h
    exact absurd h (by simp)
  | some p =>
    obtain ⟨repository, deployment⟩ := p
    rw [hp] at h
    cases getResp with
    | none => simp at h
    | some rvReq =>
      dsimp only at h
      have hdep := readOutcome_ok_deployment d rvReq d2 h
      have hidem := readOutcome_ok_idem d rvReq d2 h
      unfold resourceDeploymentVariableRead
      have hp2 : parseDeploymentId d2.deployment = some (repository, deployment) := by
        rw [hdep]
        exact hp
      rw [hp2]
      dsimp only
      exact hidem

/-- Witness for claim C8: the second Read after a 404 leaves the cleared
    record unchanged. -/
theorem read_idempotent_witness :
    (resourceDeploymentVariableRead { sampleRecord with id := "" }
        (some sampleResp404) none).1 = .ok { sampleRecord with id := "" } :=
  read_idempotent sampleRecord (some sampleResp404) none
    { sampleRecord with id := "" } rfl

end BitbucketDV
